import Mathlib

/-!
Shallow embedding of the AI-Poker game/tournament engine
(`src/core/game_engine.py`, `src/core/tournament.py`).

Conventions of the embedding:
* Python `int` is modelled as `Int` (unbounded, possibly negative).
* Mutation of `Player` objects shared between the player list, the
  per-hand game and the tournament is modelled by updating the list at
  the player's index; functions that in Python mutate `self` return the
  updated structure instead.
* `random.shuffle` is modelled by passing the shuffled deck as an
  explicit argument; `time.time()` is modelled by passing the current
  time (in seconds) as an explicit `Int` argument.
* Python exceptions (the `ValueError` raised by the evaluator on fewer
  than five cards) are modelled with `Option`: `none` is the raised
  exception.
-/

namespace AIPoker

/-- `class Suit(Enum)`. -/
inductive Suit where
  | hearts
  | diamonds
  | clubs
  | spades
deriving DecidableEq, Repr

/-- `Suit.value`, the suit symbol. -/
def Suit.symbol : Suit → String
  | .hearts => "♥"
  | .diamonds => "♦"
  | .clubs => "♣"
  | .spades => "♠"

/-- `class HandRank(Enum)`. -/
inductive HandRank where
  | high_card
  | pair
  | two_pair
  | three_of_a_kind
  | straight
  | flush
  | full_house
  | four_of_a_kind
  | straight_flush
  | royal_flush
deriving DecidableEq, Repr

/-- The numeric `value` of each `HandRank` enum member. -/
def HandRank.value : HandRank → Nat
  | .high_card => 1
  | .pair => 2
  | .two_pair => 3
  | .three_of_a_kind => 4
  | .straight => 5
  | .flush => 6
  | .full_house => 7
  | .four_of_a_kind => 8
  | .straight_flush => 9
  | .royal_flush => 10

/-- `class Action(Enum)`. -/
inductive Action where
  | fold
  | check
  | call
  | bet
  | raise
  | all_in
deriving DecidableEq, Repr

/-- The string `value` of each `Action` enum member. -/
def Action.val : Action → String
  | .fold => "fold"
  | .check => "check"
  | .call => "call"
  | .bet => "bet"
  | .raise => "raise"
  | .all_in => "all_in"

/-- `@dataclass class Card`: rank is the `Rank` enum's numeric value (2..14). -/
structure Card where
  rank : Nat
  suit : Suit
deriving DecidableEq, Repr

/-- The rank letter used by `Card.__str__`. -/
def rankStr : Nat → String
  | 2 => "2" | 3 => "3" | 4 => "4" | 5 => "5" | 6 => "6" | 7 => "7" | 8 => "8"
  | 9 => "9" | 10 => "T" | 11 => "J" | 12 => "Q" | 13 => "K" | 14 => "A"
  | _ => "?"

/-- `Card.__str__`. -/
def Card.str (c : Card) : String :=
  rankStr c.rank ++ c.suit.symbol

/-- `@dataclass class Player`. -/
structure Player where
  name : String
  chips : Int
  hole_cards : List Card := []
  current_bet : Int := 0
  folded : Bool := false
  all_in : Bool := false
  is_active : Bool := true
deriving DecidableEq, Repr

instance : Inhabited Player := ⟨{ name := "", chips := 0 }⟩

/-- `Player.reset_for_hand`. -/
def Player.reset_for_hand (p : Player) : Player :=
  { p with hole_cards := [], current_bet := 0, folded := false, all_in := false }

/-! ## HandEvaluator -/

/-- Python list comparison `values > best_values` on lists of ints
(lexicographic; a proper prefix is smaller). -/
def listGt : List Nat → List Nat → Bool
  | _ :: _, [] => true
  | [], _ => false
  | a :: as, b :: bs =>
      if a > b then true else if a < b then false else listGt as bs

/-- `HandEvaluator._is_straight`: sorted ranks descend by exactly one each step. -/
def isStraightRanks : List Nat → Bool
  | r₁ :: r₂ :: rest => (r₁ == r₂ + 1) && isStraightRanks (r₂ :: rest)
  | _ => true

/-- Descending sort, `sorted(xs, reverse=True)`. -/
def sortDesc (l : List Nat) : List Nat :=
  l.insertionSort (· ≥ ·)

/-- `HandEvaluator._evaluate_five`: evaluate exactly 5 cards. -/
def evaluateFive (cards : List Card) : HandRank × List Nat :=
  let ranks₀ := sortDesc (cards.map (·.rank))
  let suits := cards.map (·.suit)
  let is_flush := match suits with
    | [] => false
    | s :: rest => rest.all (· == s)
  let is_straight₀ := isStraightRanks ranks₀
  -- Check for wheel (A-2-3-4-5): ace plays low
  let wheel := ranks₀ == [14, 5, 4, 3, 2]
  let is_straight := is_straight₀ || wheel
  let ranks := if wheel then [5, 4, 3, 2, 1] else ranks₀
  let cnt := fun r => ranks.count r
  let uniq := ranks.dedup
  let counts := (uniq.map cnt).insertionSort (· ≥ ·)
  let unique_ranks :=
    uniq.insertionSort (fun a b => cnt a > cnt b ∨ (cnt a = cnt b ∧ a ≥ b))
  if is_straight && is_flush then
    if ranks.getD 0 0 == 14 && ranks.getD 1 0 == 13 then
      (.royal_flush, ranks)
    else
      (.straight_flush, ranks)
  else if counts == [4, 1] then
    (.four_of_a_kind, unique_ranks)
  else if counts == [3, 2] then
    (.full_house, unique_ranks)
  else if is_flush then
    (.flush, ranks)
  else if is_straight then
    (.straight, ranks)
  else if counts == [3, 1, 1] then
    (.three_of_a_kind, unique_ranks)
  else if counts == [2, 2, 1] then
    (.two_pair, unique_ranks)
  else if counts == [2, 1, 1, 1] then
    (.pair, unique_ranks)
  else
    (.high_card, ranks)

/-- `HandEvaluator.evaluate`: best 5-card hand among all 5-card
combinations; `none` models the `ValueError` on fewer than 5 cards. -/
def evaluate (cards : List Card) : Option (HandRank × List Nat) :=
  if cards.length < 5 then none
  else
    some <| (cards.sublistsLen 5).foldl
      (fun best combo =>
        let (rank, values) := evaluateFive combo
        if rank.value > best.1.value ||
           (rank.value == best.1.value && listGt values best.2) then
          (rank, values)
        else best)
      (.high_card, [])

/-- `HandEvaluator.compare_hands` tiebreaker loop (`zip` stops at the
shorter list). -/
def compareVals : List Nat → List Nat → Int
  | v₁ :: r₁, v₂ :: r₂ =>
      if v₁ > v₂ then 1 else if v₁ < v₂ then -1 else compareVals r₁ r₂
  | _, _ => 0

/-- `HandEvaluator.compare_hands`. -/
def compareHands (h₁ h₂ : HandRank × List Nat) : Int :=
  if h₁.1.value > h₂.1.value then 1
  else if h₁.1.value < h₂.1.value then -1
  else compareVals h₁.2 h₂.2

/-! ## HandState and PokerGame -/

/-- One entry of `HandState.action_history`. -/
structure ActionRecord where
  player : String
  action : String
  amount : Int
  stage : String
deriving DecidableEq, Repr

/-- `@dataclass class HandState`. -/
structure HandState where
  pot : Int := 0
  community_cards : List Card := []
  current_bet : Int := 0
  min_raise : Int := 0
  stage : String := "preflop"
  action_history : List ActionRecord := []
deriving DecidableEq, Repr

/-- `HandState.add_action`. -/
def HandState.add_action (s : HandState) (player : String) (action : Action)
    (amount : Int) : HandState :=
  { s with action_history := s.action_history ++
      [{ player := player, action := action.val, amount := amount, stage := s.stage }] }

/-- `class PokerGame`; `PokerGame.__init__` sets `deck` fresh, `state` to a
new `HandState` and `button_pos` to 0 (the dataclass-style defaults below). -/
structure PokerGame where
  players : List Player
  small_blind : Int
  big_blind : Int
  ante : Int := 0
  deck : List Card := []
  state : HandState := {}
  button_pos : Nat := 0
deriving DecidableEq, Repr

instance : Inhabited PokerGame := ⟨{ players := [], small_blind := 0, big_blind := 0 }⟩

/-- The predicate of `PokerGame.active_players`: not folded and still in the
tournament. -/
def inHand (p : Player) : Bool :=
  !p.folded && p.is_active

/-- `PokerGame.active_players`. -/
def PokerGame.active_players (g : PokerGame) : List Player :=
  g.players.filter inHand

/-- `PokerGame.players_in_tournament`. -/
def PokerGame.players_in_tournament (g : PokerGame) : List Player :=
  g.players.filter (·.is_active)

/-- Indices into `players` of the players `active_players` returns, in order
(`k` is the index of the head of the remaining list). Python mutates the
shared `Player` objects of that sublist; the embedding addresses them by
index in the full list. -/
def activeIndicesFrom : Nat → List Player → List Nat
  | _, [] => []
  | k, p :: rest =>
      if inHand p then k :: activeIndicesFrom (k + 1) rest
      else activeIndicesFrom (k + 1) rest

/-- Indices into `ps` of the in-hand players, in order. -/
def activeIndices (ps : List Player) : List Nat :=
  activeIndicesFrom 0 ps

/-- Deal two hole cards to each in-hand player in list order, threading the
deck (`for p in self.active_players(): p.hole_cards = self.deck.deal(2)`). -/
def dealHoles : List Player → List Card → List Player × List Card
  | [], deck => ([], deck)
  | p :: rest, deck =>
      if inHand p then
        let p' := { p with hole_cards := deck.take 2 }
        let (rest', deck') := dealHoles rest (deck.drop 2)
        (p' :: rest', deck')
      else
        let (rest', deck') := dealHoles rest deck
        (p :: rest', deck')

/-- `start_hand`, lines 267-274: `self.deck.reset()`, a fresh `HandState`
with `min_raise = big_blind`, and `reset_for_hand` for every active player. -/
def startHandReset (g : PokerGame) (shuffled : List Card) : PokerGame :=
  let reset := g.players.map (fun p => if p.is_active then p.reset_for_hand else p)
  { g with deck := shuffled, state := { min_raise := g.big_blind }, players := reset }

/-- `start_hand`, lines 276-281: collect antes (clamped to each stack). -/
def startHandAntes (g : PokerGame) : PokerGame :=
  if (0 : Int) < g.ante then
    let anteTotal := ((g.players.filter inHand).map (fun p => min g.ante p.chips)).sum
    let ps := g.players.map (fun p =>
      if inHand p then { p with chips := p.chips - min g.ante p.chips } else p)
    { g with players := ps, state := { g.state with pot := g.state.pot + anteTotal } }
  else g

/-- `start_hand`, lines 283-302: post the small and big blind. The
positions are computed from `button_pos` *modulo the active-player count*
and index into the active sublist. -/
def startHandBlinds (g : PokerGame) : PokerGame :=
  let idxs := activeIndices g.players
  if 2 ≤ idxs.length then
    let sb_pos := (g.button_pos + 1) % idxs.length
    let bb_pos := (g.button_pos + 2) % idxs.length
    let sbIdx := idxs.getD sb_pos 0
    let bbIdx := idxs.getD bb_pos 0
    let sb_player := g.players.getD sbIdx default
    let sb_amount := min g.small_blind sb_player.chips
    let players₁ := g.players.set sbIdx
      { sb_player with chips := sb_player.chips - sb_amount, current_bet := sb_amount }
    let bb_player := players₁.getD bbIdx default
    let bb_amount := min g.big_blind bb_player.chips
    let players₂ := players₁.set bbIdx
      { bb_player with chips := bb_player.chips - bb_amount, current_bet := bb_amount }
    { g with players := players₂,
             state := { g.state with pot := g.state.pot + sb_amount + bb_amount,
                                     current_bet := bb_amount } }
  else g

/-- `start_hand`, lines 304-306: deal two hole cards to each in-hand player. -/
def startHandDeal (g : PokerGame) : PokerGame :=
  let (players', deck') := dealHoles g.players g.deck
  { g with players := players', deck := deck' }

/-- `PokerGame.start_hand`. `shuffled` is the freshly shuffled deck produced
by `self.deck.reset()`. -/
def PokerGame.start_hand (g : PokerGame) (shuffled : List Card) : PokerGame :=
  startHandDeal (startHandBlinds (startHandAntes (startHandReset g shuffled)))

/-- `PokerGame.deal_community`. -/
def PokerGame.deal_community (g : PokerGame) : PokerGame :=
  if g.state.stage == "preflop" then
    let afterBurn := g.deck.drop 1
    { g with deck := afterBurn.drop 3,
             state := { g.state with
               community_cards := g.state.community_cards ++ afterBurn.take 3,
               stage := "flop" } }
  else if g.state.stage == "flop" then
    let afterBurn := g.deck.drop 1
    { g with deck := afterBurn.drop 1,
             state := { g.state with
               community_cards := g.state.community_cards ++ afterBurn.take 1,
               stage := "turn" } }
  else if g.state.stage == "turn" then
    let afterBurn := g.deck.drop 1
    { g with deck := afterBurn.drop 1,
             state := { g.state with
               community_cards := g.state.community_cards ++ afterBurn.take 1,
               stage := "river" } }
  else g

/-- `PokerGame.get_valid_actions`: list of `(Action, min_amount, max_amount)`. -/
def PokerGame.get_valid_actions (g : PokerGame) (player : Player) :
    List (Action × Int × Int) :=
  if player.folded || player.all_in then []
  else
    let to_call := g.state.current_bet - player.current_bet
    let actions := [(Action.fold, (0 : Int), (0 : Int))]
    if to_call == 0 then
      let actions := actions ++ [(Action.check, 0, 0)]
      if player.chips > 0 then
        actions ++ [(Action.bet, g.big_blind, player.chips)]
      else actions
    else
      if player.chips ≤ to_call then
        actions ++ [(Action.all_in, player.chips, player.chips)]
      else
        let actions := actions ++ [(Action.call, to_call, to_call)]
        let min_raise := to_call + g.state.min_raise
        let max_raise := player.chips
        if max_raise ≥ min_raise then
          actions ++ [(Action.raise, min_raise, max_raise)]
        else actions

/-- `PokerGame.apply_action` for the player at index `i` of `players`
(Python mutates the shared `Player` object passed in). -/
def PokerGame.apply_action (g : PokerGame) (i : Nat) (action : Action)
    (amount : Int) : PokerGame :=
  let player := g.players.getD i default
  let g :=
    match action with
    | .fold =>
        { g with players := g.players.set i { player with folded := true } }
    | .check => g
    | .call =>
        let to_call := g.state.current_bet - player.current_bet
        let call_amount := min to_call player.chips
        let p' := { player with chips := player.chips - call_amount,
                                current_bet := player.current_bet + call_amount }
        let p' := if p'.chips == 0 then { p' with all_in := true } else p'
        { g with players := g.players.set i p',
                 state := { g.state with pot := g.state.pot + call_amount } }
    | .bet =>
        let p' := { player with chips := player.chips - amount,
                                current_bet := player.current_bet + amount }
        let p' := if p'.chips == 0 then { p' with all_in := true } else p'
        { g with players := g.players.set i p',
                 state := { g.state with pot := g.state.pot + amount,
                                         current_bet := player.current_bet + amount,
                                         min_raise := amount } }
    | .raise =>
        let raise_to := player.current_bet + amount
        let additional := amount
        let p' := { player with chips := player.chips - additional,
                                current_bet := player.current_bet + additional }
        let p' := if p'.chips == 0 then { p' with all_in := true } else p'
        { g with players := g.players.set i p',
                 state := { g.state with pot := g.state.pot + additional,
                                         min_raise := raise_to - g.state.current_bet,
                                         current_bet := player.current_bet + additional } }
    | .all_in =>
        let all_in_amount := player.chips
        let p' := { player with chips := 0,
                                current_bet := player.current_bet + all_in_amount,
                                all_in := true }
        let st := { g.state with pot := g.state.pot + all_in_amount }
        let st :=
          if player.current_bet + all_in_amount > g.state.current_bet then
            { st with min_raise := player.current_bet + all_in_amount - g.state.current_bet,
                      current_bet := player.current_bet + all_in_amount }
          else st
        { g with players := g.players.set i p', state := st }
  { g with state := g.state.add_action player.name action amount }

/-- `PokerGame.is_betting_complete`. -/
def PokerGame.is_betting_complete (g : PokerGame) : Bool :=
  let active := g.active_players.filter (fun p => !p.all_in)
  if active.length ≤ 1 then true
  else active.all (fun p => p.current_bet == g.state.current_bet)

/-- `PokerGame.reset_betting_round`. -/
def PokerGame.reset_betting_round (g : PokerGame) : PokerGame :=
  let ps := g.players.map (fun p => if inHand p then { p with current_bet := 0 } else p)
  { g with players := ps, state := { g.state with current_bet := 0 } }

/-- `PokerGame.advance_button`. -/
def PokerGame.advance_button (g : PokerGame) : PokerGame :=
  let active_indices := (g.players.enum.filter (fun x => x.2.is_active)).map (·.1)
  if active_indices.isEmpty then g
  else
    let n := g.players.length
    let current := g.button_pos % n
    match ((List.range n).map (fun k => (current + k + 1) % n)).find?
        (fun pos => active_indices.contains pos) with
    | some pos => { g with button_pos := pos }
    | none => g

/-- `PokerGame.eliminate_busted_players`. -/
def PokerGame.eliminate_busted_players (g : PokerGame) : PokerGame :=
  let ps := g.players.map
    (fun p => if p.chips ≤ 0 && p.is_active then { p with is_active := false } else p)
  { g with players := ps }

/-! ## determine_winners -/

/-- The winner-selection loop of `determine_winners`: fold over the
non-folded players paired with their evaluated hands, keeping the best hand
seen so far and the list of players tied for it (`winners.append` on a tie,
restart on a strictly better hand). Players are carried with their index
into `players`. -/
def pickWinners : List ((Nat × Player) × (HandRank × List Nat)) →
    Option (HandRank × List Nat) → List (Nat × Player) →
    Option (HandRank × List Nat) × List (Nat × Player)
  | [], best, ws => (best, ws)
  | (p, h) :: rest, none, _ => pickWinners rest (some h) [p]
  | (p, h) :: rest, some b, ws =>
      let c := compareHands h b
      if c > 0 then pickWinners rest (some h) [p]
      else if c == 0 then pickWinners rest (some b) (ws ++ [p])
      else pickWinners rest (some b) ws

/-- Add `won` chips to the player at index `i` (`w.chips += won`). -/
def awardChips (ps : List Player) (i : Nat) (won : Int) : List Player :=
  let q := ps.getD i default
  ps.set i { q with chips := q.chips + won }

/-- The hand-evaluation loop of `determine_winners` (`hands[p.name] =
evaluate(...)` for every non-folded player): pairs each player with their
evaluated hand, propagating the evaluator's failure (`none`) if any player
has fewer than five cards available. -/
def evalHands (community : List Card) :
    List (Nat × Player) → Option (List ((Nat × Player) × (HandRank × List Nat)))
  | [] => some []
  | ip :: rest =>
      match evaluate (ip.2.hole_cards ++ community), evalHands community rest with
      | some h, some hs => some ((ip, h) :: hs)
      | _, _ => none

/-- `PokerGame.determine_winners`: returns the `(player-name, amount_won)`
list and the game with winners' chip counts updated. `none` models the
`ValueError` the evaluator raises when a showdown participant has fewer
than five cards available. -/
def PokerGame.determine_winners (g : PokerGame) :
    Option (List (String × Int) × PokerGame) :=
  let active := g.players.enum.filter (fun x => inHand x.2)
  match active with
  | [] =>
      -- Edge case: everyone folded. Pot goes to the active player who
      -- contributed the most this hand (ties: the later player wins, as the
      -- scan uses >=), else the first active player, else nobody.
      let scan := g.players.enum.foldl
        (fun acc x =>
          if x.2.is_active && decide (x.2.current_bet ≥ acc.1) then
            (x.2.current_bet, some x.1)
          else acc)
        ((0 : Int), (none : Option Nat))
      let winner? :=
        match scan.2 with
        | some i => some i
        | none => (g.players.enum.find? (fun x => x.2.is_active)).map (·.1)
      match winner? with
      | some i =>
          let p := g.players.getD i default
          some ([(p.name, g.state.pot)],
                { g with players := awardChips g.players i g.state.pot })
      | none => some ([], g)
  | [x] =>
      -- Everyone else folded
      some ([(x.2.name, g.state.pot)],
            { g with players := awardChips g.players x.1 g.state.pot })
  | _ =>
      -- Showdown: evaluate each non-folded player's hole + community cards
      let hands? := evalHands g.state.community_cards active
      match hands? with
      | none => none
      | some pairs =>
          let winners := (pickWinners pairs none []).2
          let n := winners.length
          let share := g.state.pot.fdiv n
          let rem := g.state.pot.fmod n
          let awards := winners.enum.map
            (fun x => (x.2, share + if (x.1 : Int) < rem then (1 : Int) else 0))
          let players' := awards.foldl (fun ps a => awardChips ps a.1.1 a.2) g.players
          some (awards.map (fun a => (a.1.2.name, a.2)), { g with players := players' })

/-! ## Player-scoped game state -/

/-- One entry of the `opponents` list of `get_game_state_for_player`. -/
structure OpponentView where
  name : String
  chips : Int
  bet : Int
  folded : Bool
  all_in : Bool
deriving DecidableEq, Repr

/-- The dict returned by `PokerGame.get_game_state_for_player`. -/
structure PlayerGameState where
  your_cards : List String
  your_chips : Int
  your_bet : Int
  pot : Int
  community_cards : List String
  current_bet : Int
  stage : String
  opponents : List OpponentView
  action_history : List ActionRecord
deriving DecidableEq, Repr

/-- `PokerGame.get_game_state_for_player`. -/
def PokerGame.get_game_state_for_player (g : PokerGame) (player : Player) :
    PlayerGameState :=
  let opp := g.players.filter (fun p => p.name ≠ player.name && p.is_active)
  { your_cards := player.hole_cards.map Card.str,
    your_chips := player.chips,
    your_bet := player.current_bet,
    pot := g.state.pot,
    community_cards := g.state.community_cards.map Card.str,
    current_bet := g.state.current_bet,
    stage := g.state.stage,
    opponents := opp.map (fun p =>
      { name := p.name, chips := p.chips, bet := p.current_bet,
        folded := p.folded, all_in := p.all_in }),
    action_history := g.state.action_history.drop
      (g.state.action_history.length - 10) }

/-! ## Tournament -/

/-- `@dataclass class BlindLevel`. -/
structure BlindLevel where
  small_blind : Int
  big_blind : Int
  ante : Int := 0
  duration_hands : Nat := 10
  duration_minutes : Int := 5
deriving DecidableEq, Repr

instance : Inhabited BlindLevel := ⟨{ small_blind := 0, big_blind := 0 }⟩

/-- `DEFAULT_BLIND_STRUCTURE`. -/
def DEFAULT_BLIND_STRUCTURE : List BlindLevel :=
  [⟨100, 200, 0, 10, 5⟩, ⟨150, 300, 0, 10, 5⟩, ⟨200, 400, 50, 10, 5⟩,
   ⟨300, 600, 75, 10, 5⟩, ⟨400, 800, 100, 10, 5⟩, ⟨600, 1200, 150, 10, 5⟩,
   ⟨800, 1600, 200, 10, 5⟩, ⟨1000, 2000, 250, 10, 5⟩, ⟨1500, 3000, 400, 10, 5⟩,
   ⟨2000, 4000, 500, 10, 5⟩, ⟨3000, 6000, 750, 10, 5⟩, ⟨4000, 8000, 1000, 10, 5⟩]

/-- `@dataclass class TournamentConfig`. -/
structure TournamentConfig where
  starting_chips : Int := 10000
  blind_structure : List BlindLevel := DEFAULT_BLIND_STRUCTURE
deriving DecidableEq, Repr

/-- `@dataclass class HandResult`. -/
structure HandResult where
  hand_number : Nat
  winners : List String
  pot : Int
  eliminations : List String
  showdown : Bool
  final_board : List String
  summary : String
deriving DecidableEq, Repr

/-- One entry of `TournamentResult.final_standings`. -/
structure Standing where
  name : String
  place : Nat
  chips_at_end : Int
deriving DecidableEq, Repr

/-- `@dataclass class TournamentResult`. -/
structure TournamentResult where
  winner : String
  final_standings : List Standing
  total_hands : Nat
  duration_seconds : Int
  hand_history : List HandResult
deriving DecidableEq, Repr

/-- `class Tournament` (state fields of `Tournament.__init__`; timestamps are
`Int` seconds, and the external callback slots are not modelled). -/
structure Tournament where
  config : TournamentConfig := {}
  players : List Player
  current_level : Nat := 0
  hands_at_level : Nat := 0
  level_start_time : Int := 0
  tournament_start_time : Int := 0
  hand_number : Nat := 0
  hand_history : List HandResult := []
  game : Option PokerGame := none
  eliminations : List String := []
deriving DecidableEq, Repr

/-- `Tournament.current_blinds`. -/
def Tournament.current_blinds (t : Tournament) : BlindLevel :=
  let level_idx := min t.current_level (t.config.blind_structure.length - 1)
  t.config.blind_structure.getD level_idx default

/-- `Tournament.active_players`. -/
def Tournament.active_players (t : Tournament) : List Player :=
  t.players.filter (·.is_active)

/-- `Tournament.is_complete`. -/
def Tournament.is_complete (t : Tournament) : Bool :=
  t.active_players.length ≤ 1

/-- `Tournament.check_level_up`; `now` is the value of `time.time()`. -/
def Tournament.check_level_up (t : Tournament) (now : Int) : Tournament :=
  let blinds := t.current_blinds
  let elapsed := now - t.level_start_time
  let should_level :=
    blinds.duration_hands ≤ t.hands_at_level ∨ blinds.duration_minutes * 60 ≤ elapsed
  if should_level ∧ t.current_level < t.config.blind_structure.length - 1 then
    { t with current_level := t.current_level + 1,
             hands_at_level := 0,
             level_start_time := now }
  else t

/-- `Tournament.start_hand`: level check, counters, then a **fresh**
`PokerGame` built by `PokerGame.__init__` (which sets `button_pos = 0`)
whose `start_hand` posts blinds and deals from `shuffled`. The tournament's
player list is the same object list the game mutates, so it is synced. -/
def Tournament.start_hand (t : Tournament) (now : Int) (shuffled : List Card) :
    Tournament :=
  let t := t.check_level_up now
  let t := { t with hand_number := t.hand_number + 1,
                    hands_at_level := t.hands_at_level + 1 }
  let blinds := t.current_blinds
  let game : PokerGame :=
    { players := t.players, small_blind := blinds.small_blind,
      big_blind := blinds.big_blind, ante := blinds.ante }
  let game := game.start_hand shuffled
  { t with players := game.players, game := some game }

/-- The elimination scan of `Tournament.complete_hand`: mark players with
`chips <= 0` inactive, collecting their names in scan order. -/
def elimScan : List Player → List Player × List String
  | [] => ([], [])
  | p :: rest =>
      let (rest', names) := elimScan rest
      if p.chips ≤ 0 && p.is_active then
        ({ p with is_active := false } :: rest', p.name :: names)
      else (p :: rest', names)

/-- `Tournament._create_hand_summary`. -/
def create_hand_summary (hand_number : Nat) (winners : List (String × Int))
    (board : List Card) (elims : List String) : String :=
  let first := "Hand #" ++ toString hand_number
  let winLine :=
    match winners with
    | [w] => w.1 ++ " wins $" ++ toString w.2
    | _ => "Split pot: " ++ String.intercalate ", " (winners.map (·.1))
  let lines := [first, winLine]
  let lines :=
    if board.isEmpty then lines
    else lines ++ ["Board: " ++ String.intercalate " " (board.map Card.str)]
  let lines := lines ++ elims.map (fun name => name ++ " ELIMINATED!")
  String.intercalate " | " lines

/-- `Tournament.complete_hand`. The winners argument carries each winning
player's name and amount won (Python passes the player objects themselves but
reads only `.name` and the amount). Eliminations are applied to the shared
player objects, so both the tournament list and the game see them; the button
is advanced on the *current* game object. -/
def Tournament.complete_hand (t : Tournament) (winners : List (String × Int)) :
    Tournament × HandResult :=
  let (players', newElims) := elimScan t.players
  let g := t.game.getD default
  let g := { g with players := players' }
  let result : HandResult :=
    { hand_number := t.hand_number,
      winners := winners.map (·.1),
      pot := (winners.map (·.2)).sum,
      eliminations := newElims,
      showdown := 1 < g.active_players.length,
      final_board := g.state.community_cards.map Card.str,
      summary := create_hand_summary t.hand_number winners
        g.state.community_cards newElims }
  let g := g.advance_button
  ({ t with players := players',
            eliminations := t.eliminations ++ newElims,
            hand_history := t.hand_history ++ [result],
            game := some g },
   result)

/-- `Tournament.get_final_results`; `now` is the value of `time.time()`. -/
def Tournament.get_final_results (t : Tournament) (now : Int) : TournamentResult :=
  let active := t.active_players
  let head :=
    match active with
    | [] => ([] : List Standing)
    | w :: _ => [{ name := w.name, place := 1, chips_at_end := w.chips }]
  let tail := t.eliminations.reverse.enum.map
    (fun x => ({ name := x.2, place := x.1 + 2, chips_at_end := 0 } : Standing))
  let standings := head ++ tail
  { winner := match standings with | [] => "None" | s :: _ => s.name,
    final_standings := standings,
    total_hands := t.hand_number,
    duration_seconds := now - t.tournament_start_time,
    hand_history := t.hand_history }

/-! ## Derived notions used by the verified properties -/

/-- Total chips held by a list of players. -/
def chipsSum (ps : List Player) : Int :=
  (ps.map (·.chips)).sum

/-- Two players agree on every field `get_game_state_for_player` exposes
about opponents (everything except the private hole cards). -/
def samePublic (q₁ q₂ : Player) : Prop :=
  q₁.name = q₂.name ∧ q₁.chips = q₂.chips ∧ q₁.current_bet = q₂.current_bet ∧
  q₁.folded = q₂.folded ∧ q₁.all_in = q₂.all_in ∧ q₁.is_active = q₂.is_active

/-! ## Concrete scenarios -/

/-- A full ordered 52-card deck, standing in for one concrete shuffle. -/
def sampleDeck : List Card :=
  ([Suit.hearts, Suit.diamonds, Suit.clubs, Suit.spades]).flatMap
    (fun s => (List.range 13).map (fun k => Card.mk (k + 2) s))

/-- C2 showdown: three live players, a royal flush on the board (everyone
plays the board, a three-way tie), pot 100. -/
def c2Game : PokerGame :=
  { players := [
      { name := "P1", chips := 0, hole_cards := [⟨2, .hearts⟩, ⟨3, .hearts⟩] },
      { name := "P2", chips := 0, hole_cards := [⟨2, .diamonds⟩, ⟨3, .diamonds⟩] },
      { name := "P3", chips := 0, hole_cards := [⟨2, .clubs⟩, ⟨3, .clubs⟩] }],
    small_blind := 50, big_blind := 100,
    state := { pot := 100, stage := "river",
               community_cards := [⟨14, .spades⟩, ⟨13, .spades⟩, ⟨12, .spades⟩,
                                   ⟨11, .spades⟩, ⟨10, .spades⟩] } }

/-- C2 witness instance: one player left un-folded, pot 80. -/
def c2UncontestedGame : PokerGame :=
  { players := [{ name := "W", chips := 500 },
                { name := "L", chips := 420, folded := true }],
    small_blind := 50, big_blind := 100, state := { pot := 80 } }

/-- `c2UncontestedGame` after `determine_winners` pays the pot to W. -/
def c2UncontestedAfter : PokerGame :=
  { c2UncontestedGame with
    players := [{ name := "W", chips := 580 },
                { name := "L", chips := 420, folded := true }] }

/-- C3: the acting player owes nothing, stack 500, big blind 200. -/
def c3Player : Player := { name := "X", chips := 500 }

/-- C3 game for `c3Player` (table current bet 0). -/
def c3Game : PokerGame :=
  { players := [c3Player, { name := "Y", chips := 800 }],
    small_blind := 100, big_blind := 200 }

/-- C3: the acting player owes 300 and has only 250 chips. -/
def c3ShortPlayer : Player := { name := "S", chips := 250 }

/-- C3 game for `c3ShortPlayer` (table current bet 300). -/
def c3ShortGame : PokerGame :=
  { players := [c3ShortPlayer, { name := "Y", chips := 800, current_bet := 300 }],
    small_blind := 100, big_blind := 200, state := { current_bet := 300, min_raise := 200 } }

/-- C4: heads-up, stacks 1000/1000, blinds 50/100, button on player 0. -/
def c4Game : PokerGame :=
  { players := [{ name := "Btn", chips := 1000 }, { name := "Other", chips := 1000 }],
    small_blind := 50, big_blind := 100, button_pos := 0 }

/-- C5: a flop street with three live players, all current bets 0, table
current bet 0, nobody has acted yet. -/
def c5Game : PokerGame :=
  { players := [{ name := "A", chips := 900 }, { name := "B", chips := 900 },
                { name := "C", chips := 900 }],
    small_blind := 50, big_blind := 100,
    state := { pot := 300, stage := "flop" } }

/-- C7: a tournament sitting at the *last* configured blind level with the
hand-count threshold reached. -/
def c7LastLevel : Tournament :=
  { config := { blind_structure := [⟨100, 200, 0, 10, 5⟩] },
    players := [{ name := "A", chips := 10000 }, { name := "B", chips := 10000 }],
    hands_at_level := 10, level_start_time := 0 }

/-- C7 witness: default 12-level structure, 10 hands played at level 0,
only 5 seconds elapsed. -/
def c7Advance : Tournament :=
  { config := {},
    players := [{ name := "A", chips := 10000 }, { name := "B", chips := 10000 }],
    hands_at_level := 10, level_start_time := 0 }

/-- C8: a fresh 3-player tournament (default config). -/
def c8Tournament : Tournament :=
  { players := [{ name := "A", chips := 10000 }, { name := "B", chips := 10000 },
                { name := "C", chips := 10000 }] }

/-- C8: the tournament after its first hand was started (at time 0) and
completed; the button should now govern hand 2. -/
def c8AfterHand1 : Tournament :=
  ((c8Tournament.start_hand 0 sampleDeck).complete_hand [("A", 300)]).1

/-- C9: 4-player field, P3 then P1 eliminated, P0 and P2 both still active. -/
def c9Tournament : Tournament :=
  { players := [{ name := "P0", chips := 20000 },
                { name := "P1", chips := 0, is_active := false },
                { name := "P2", chips := 20000 },
                { name := "P3", chips := 0, is_active := false }],
    eliminations := ["P3", "P1"] }

/-- C9: the same field played to completion, eliminations [P3, P1, P2]. -/
def c9Finished : Tournament :=
  { players := [{ name := "P0", chips := 40000 },
                { name := "P1", chips := 0, is_active := false },
                { name := "P2", chips := 0, is_active := false },
                { name := "P3", chips := 0, is_active := false }],
    eliminations := ["P3", "P1", "P2"] }

/-- C10: the observing player. -/
def c10Me : Player :=
  { name := "Me", chips := 800, current_bet := 100,
    hole_cards := [⟨14, .spades⟩, ⟨13, .spades⟩] }

/-- C10: a game state in which the opponent holds A♥A♦. -/
def c10Game₁ : PokerGame :=
  { players := [c10Me,
                { name := "Opp", chips := 600, current_bet := 200,
                  hole_cards := [⟨14, .hearts⟩, ⟨14, .diamonds⟩] }],
    small_blind := 50, big_blind := 100,
    state := { pot := 300, current_bet := 200 } }

/-- C10: the same game state except the opponent holds 7♣2♦. -/
def c10Game₂ : PokerGame :=
  { players := [c10Me,
                { name := "Opp", chips := 600, current_bet := 200,
                  hole_cards := [⟨7, .clubs⟩, ⟨2, .diamonds⟩] }],
    small_blind := 50, big_blind := 100,
    state := { pot := 300, current_bet := 200 } }

/-- C1 witness game: two active players, one may check. -/
def c1Game : PokerGame :=
  { players := [{ name := "A", chips := 900, current_bet := 100 },
                { name := "B", chips := 900, current_bet := 100 }],
    small_blind := 50, big_blind := 100,
    state := { pot := 200, current_bet := 100, min_raise := 100 } }

/-! ## Theorems -/

set_option maxRecDepth 20000

/-- C6: `HandEvaluator.evaluate` scores A♠A♥K♦K♣2♣ as TWO_PAIR with
tiebreaker vector [14,13,2]; 7♠6♠5♠4♠3♠ as a STRAIGHT_FLUSH; and the
mixed-suit A♠2♥3♦4♣5♠ as a STRAIGHT with tiebreaker vector [5,4,3,2,1]
(the wheel, ace played low), which is not [14,5,4,3,2]. -/
theorem c6_evaluate_vectors :
    evaluate [⟨14, .spades⟩, ⟨14, .hearts⟩, ⟨13, .diamonds⟩, ⟨13, .clubs⟩, ⟨2, .clubs⟩]
        = some (.two_pair, [14, 13, 2]) ∧
    evaluate [⟨7, .spades⟩, ⟨6, .spades⟩, ⟨5, .spades⟩, ⟨4, .spades⟩, ⟨3, .spades⟩]
        = some (.straight_flush, [7, 6, 5, 4, 3]) ∧
    evaluate [⟨14, .spades⟩, ⟨2, .hearts⟩, ⟨3, .diamonds⟩, ⟨4, .clubs⟩, ⟨5, .spades⟩]
        = some (.straight, [5, 4, 3, 2, 1]) ∧
    ([5, 4, 3, 2, 1] : List Nat) ≠ [14, 5, 4, 3, 2] := by
  decide

/-- C4 (code bug): at the failing input — a heads-up hand, stacks
1000/1000, blinds 50/100, button on player 0 — `start_hand` makes the
*button* post the big blind 100 and the other player the small blind 50
(the claim says the button posts the small blind 50), while the table
current-bet-to-match is set to 100 and the pot to 150. -/
theorem c4_headsup_button_posts_big_blind :
    ((c4Game.start_hand sampleDeck).players.map
        (fun p => (p.name, p.chips, p.current_bet))
      = [("Btn", 900, 100), ("Other", 950, 50)]) ∧
    (c4Game.start_hand sampleDeck).state.current_bet = 100 ∧
    (c4Game.start_hand sampleDeck).state.pot = 150 := by
  decide

/-- C5 counterexample: on a flop street with three live players whose
current bets are all 0 and table current bet 0, `is_betting_complete` is
already true although nobody has checked yet (the action history is empty)
— refuting "it does not hold before all three have checked". -/
theorem c5_complete_before_any_check :
    c5Game.is_betting_complete = true ∧ c5Game.state.action_history = [] := by
  decide

/-- C5 (amended): on such a street `is_betting_complete` is true before any
check (every live player's bet 0 already equals the table current bet 0)
and remains true after each of the three checks; the round's
"only after the third check" termination is enforced by the orchestrator's
acted-set, not by `is_betting_complete` alone. -/
theorem c5_complete_throughout_checks :
    c5Game.is_betting_complete = true ∧
    (c5Game.apply_action 0 .check 0).is_betting_complete = true ∧
    ((c5Game.apply_action 0 .check 0).apply_action 1 .check 0).is_betting_complete
      = true ∧
    (((c5Game.apply_action 0 .check 0).apply_action 1 .check 0).apply_action 2
        .check 0).is_betting_complete = true ∧
    ((((c5Game.apply_action 0 .check 0).apply_action 1 .check 0).apply_action 2
        .check 0).state.action_history.map (·.action)
      = ["check", "check", "check"]) := by
  decide

/-- C7 counterexample: at the last configured blind level with the
hand-count threshold reached, `check_level_up` neither advances the level
nor resets the counters — the state is returned unchanged. -/
theorem c7_no_advance_at_last_level :
    c7LastLevel.current_blinds.duration_hands ≤ c7LastLevel.hands_at_level ∧
    c7LastLevel.check_level_up 0 = c7LastLevel := by
  decide

/-- C8 (code bug): in a 3-player tournament, hand 1 is played with button
position 0; `complete_hand` advances the button of the *current* game
object to 1 (the next active player), but the next `start_hand` constructs
a fresh `PokerGame` whose constructor resets `button_pos` to 0, so the
button position governing blind posting in hand 2 is again 0, not 1. -/
theorem c8_button_resets_each_hand :
    ((c8Tournament.start_hand 0 sampleDeck).game.getD default).button_pos = 0 ∧
    (c8AfterHand1.game.getD default).button_pos = 1 ∧
    ((c8AfterHand1.start_hand 1 sampleDeck).game.getD default).button_pos = 0 := by
  decide

/-- C9 counterexample: in the 4-player field with eliminations [P3, P1] and
two survivors, `get_final_results` assigns P1 place 2 (not 3) and P3 place
3 (not 4), and the second surviving player P2 does not appear in the
standings at all. -/
theorem c9_two_survivor_places :
    ((c9Tournament.get_final_results 0).final_standings.map
        (fun s => (s.name, s.place))
      = [("P0", 1), ("P1", 2), ("P3", 3)]) ∧
    ¬ (∃ s ∈ (c9Tournament.get_final_results 0).final_standings,
        s.name = "P1" ∧ s.place = 3) ∧
    ¬ (∃ s ∈ (c9Tournament.get_final_results 0).final_standings,
        s.name = "P2") := by
  decide

/-- C9 (amended): `get_final_results` lists the first still-active player
at place 1, omits any further survivors, and assigns the remaining places
2, 3, ... by reverse elimination order (most recently eliminated first):
with eliminations [P3, P1] and two survivors it yields P0 place 1, P1
place 2, P3 place 3; on the finished field with eliminations [P3, P1, P2]
it yields P0 place 1, P2 place 2, P1 place 3, P3 place 4. -/
theorem c9_reverse_elimination_order :
    ((c9Tournament.get_final_results 0).final_standings.map
        (fun s => (s.name, s.place))
      = [("P0", 1), ("P1", 2), ("P3", 3)]) ∧
    ((c9Finished.get_final_results 0).final_standings.map
        (fun s => (s.name, s.place))
      = [("P0", 1), ("P2", 2), ("P1", 3), ("P3", 4)]) := by
  decide

/-- C3: for every non-folded, non-all-in player, if the player owes nothing
(`to_call == 0`) and has a positive stack, `get_valid_actions` returns
exactly FOLD, CHECK, BET(min = big blind, max = stack); if the player owes
money and the stack is at most the amount owed, it returns exactly FOLD,
ALL_IN(stack, stack). -/
theorem c3_get_valid_actions_cases (g : PokerGame) (p : Player)
    (hf : p.folded = false) (ha : p.all_in = false) :
    (g.state.current_bet - p.current_bet = 0 → 0 < p.chips →
      g.get_valid_actions p =
        [(.fold, 0, 0), (.check, 0, 0), (.bet, g.big_blind, p.chips)]) ∧
    (0 < g.state.current_bet - p.current_bet →
      p.chips ≤ g.state.current_bet - p.current_bet →
      g.get_valid_actions p = [(.fold, 0, 0), (.all_in, p.chips, p.chips)]) := by
  constructor
  · intro h0 hc
    simp [PokerGame.get_valid_actions, hf, ha, h0, hc]
  · intro h1 h2
    have hne : g.state.current_bet - p.current_bet ≠ 0 := ne_of_gt h1
    simp [PokerGame.get_valid_actions, hf, ha, hne, h2]

/-- C3 witness: owing 0 with a 500-chip stack and a 200 big blind gives
exactly FOLD, CHECK, BET(200, 500); owing 300 with only 250 chips gives
exactly FOLD, ALL_IN(250, 250). -/
theorem c3_get_valid_actions_cases_witness :
    c3Game.get_valid_actions c3Player =
      [(.fold, 0, 0), (.check, 0, 0), (.bet, 200, 500)] ∧
    c3ShortGame.get_valid_actions c3ShortPlayer =
      [(.fold, 0, 0), (.all_in, 250, 250)] :=
  ⟨(c3_get_valid_actions_cases c3Game c3Player rfl rfl).1 (by decide) (by decide),
   (c3_get_valid_actions_cases c3ShortGame c3ShortPlayer rfl rfl).2
     (by decide) (by decide)⟩

/-- C7 (amended): `check_level_up` never advances the level by more than
one step per call; and whenever the level's hand-count threshold or its
elapsed-time threshold has been reached *and the current level is below the
last configured level*, it advances the level by exactly one step and
resets both the hands-at-level counter and the level timer. (At the last
configured level the code keeps the level and counters unchanged.) -/
theorem c7_check_level_up_one_step :
    (∀ (t : Tournament) (now : Int),
      (t.check_level_up now).current_level ≤ t.current_level + 1) ∧
    (∀ (t : Tournament) (now : Int),
      (t.current_blinds.duration_hands ≤ t.hands_at_level ∨
        t.current_blinds.duration_minutes * 60 ≤ now - t.level_start_time) →
      t.current_level < t.config.blind_structure.length - 1 →
      (t.check_level_up now).current_level = t.current_level + 1 ∧
      (t.check_level_up now).hands_at_level = 0 ∧
      (t.check_level_up now).level_start_time = now) := by
  constructor
  · intro t now
    simp only [Tournament.check_level_up]
    split
    · simp
    · simp
  · intro t now hthr hlt
    simp only [Tournament.check_level_up]
    split
    next => exact ⟨rfl, rfl, rfl⟩
    next h => exact absurd ⟨hthr, hlt⟩ h

/-- C7 witness: with the default 12-level structure, 10 hands played at
level 0 and only 5 seconds elapsed, `check_level_up` advances to level 1
and resets the hand counter and level timer. -/
theorem c7_check_level_up_one_step_witness :
    (c7Advance.check_level_up 5).current_level = c7Advance.current_level + 1 ∧
    (c7Advance.check_level_up 5).hands_at_level = 0 ∧
    (c7Advance.check_level_up 5).level_start_time = 5 :=
  c7_check_level_up_one_step.2 c7Advance 5 (Or.inl (by decide)) (by decide)

/-! ### Chip-conservation lemmas (C1) -/

theorem chipsSum_nil : chipsSum [] = 0 := rfl

theorem chipsSum_cons (p : Player) (ps : List Player) :
    chipsSum (p :: ps) = p.chips + chipsSum ps := by
  simp [chipsSum]

theorem chipsSum_set : ∀ (ps : List Player) (i : Nat) (q : Player), i < ps.length →
    chipsSum (ps.set i q) = chipsSum ps - (ps.getD i default).chips + q.chips
  | [], i, q, h => by simp at h
  | p :: ps, 0, q, _ => by
      simp [chipsSum_cons]
      ring
  | p :: ps, i + 1, q, h => by
      simp only [List.set_cons_succ, chipsSum_cons, List.getD_cons_succ]
      rw [chipsSum_set ps i q (by simpa using h)]
      ring

theorem chipsSum_map (f : Player → Player) (h : ∀ p, (f p).chips = p.chips) :
    ∀ ps : List Player, chipsSum (ps.map f) = chipsSum ps
  | [] => rfl
  | p :: ps => by simp [chipsSum_cons, h, chipsSum_map f h ps]

theorem chipsSum_ante (a : Int) :
    ∀ ps : List Player,
      chipsSum (ps.map (fun p =>
          if inHand p then { p with chips := p.chips - min a p.chips } else p))
        + ((ps.filter inHand).map (fun p => min a p.chips)).sum
      = chipsSum ps
  | [] => by simp [chipsSum_nil]
  | p :: ps => by
      have ih := chipsSum_ante a ps
      by_cases h : inHand p <;>
        simp only [List.map_cons, List.filter_cons, h, if_pos, if_neg,
          Bool.false_eq_true, ite_true, ite_false, chipsSum_cons, List.sum_cons] <;>
        omega

theorem mem_activeIndicesFrom : ∀ (ps : List Player) (k i : Nat),
    i ∈ activeIndicesFrom k ps → i < k + ps.length
  | [], _, _, h => by simp [activeIndicesFrom] at h
  | p :: ps, k, i, h => by
      unfold activeIndicesFrom at h
      by_cases hp : inHand p
      · rw [if_pos hp] at h
        rcases List.mem_cons.mp h with h | h
        · simp [h]
        · have := mem_activeIndicesFrom ps (k + 1) i h
          simpa [Nat.add_comm, Nat.add_left_comm] using Nat.lt_of_lt_of_le this (by omega)
      · rw [if_neg hp] at h
        have := mem_activeIndicesFrom ps (k + 1) i h
        exact Nat.lt_of_lt_of_le this (by simp; omega)

theorem mem_activeIndices_lt {ps : List Player} {i : Nat}
    (h : i ∈ activeIndices ps) : i < ps.length := by
  simpa using mem_activeIndicesFrom ps 0 i h

theorem getD_mem_of_lt : ∀ {l : List Nat} {n : Nat}, n < l.length → ∀ d, l.getD n d ∈ l
  | [], n, h, _ => by simp at h
  | x :: xs, 0, _, d => by simp
  | x :: xs, n + 1, h, d => by
      simp only [List.getD_cons_succ]
      exact List.mem_cons_of_mem x (getD_mem_of_lt (by simpa using h) d)

theorem chipsSum_dealHoles : ∀ (ps : List Player) (deck : List Card),
    chipsSum (dealHoles ps deck).1 = chipsSum ps
  | [], _ => rfl
  | p :: ps, deck => by
      unfold dealHoles
      by_cases h : inHand p
      · rw [if_pos h]
        have ih := chipsSum_dealHoles ps (deck.drop 2)
        cases hd : dealHoles ps (deck.drop 2) with
        | mk a b => rw [hd] at ih; simpa [chipsSum_cons] using ih
      · rw [if_neg h]
        have ih := chipsSum_dealHoles ps deck
        cases hd : dealHoles ps deck with
        | mk a b => rw [hd] at ih; simpa [chipsSum_cons] using ih

theorem startHandReset_conserve (g : PokerGame) (s : List Card) :
    chipsSum (startHandReset g s).players = chipsSum g.players ∧
    (startHandReset g s).state.pot = 0 := by
  constructor
  · simp only [startHandReset]
    exact chipsSum_map _ (fun p => by by_cases h : p.is_active <;>
      simp [h, Player.reset_for_hand]) g.players
  · rfl

theorem startHandAntes_conserve (g : PokerGame) :
    chipsSum (startHandAntes g).players + (startHandAntes g).state.pot
      = chipsSum g.players + g.state.pot := by
  simp only [startHandAntes]
  split
  · have := chipsSum_ante g.ante g.players
    simp only []
    omega
  · rfl

theorem startHandBlinds_conserve (g : PokerGame) :
    chipsSum (startHandBlinds g).players + (startHandBlinds g).state.pot
      = chipsSum g.players + g.state.pot := by
  simp only [startHandBlinds]
  split
  next h =>
    have hlen : 0 < (activeIndices g.players).length := by omega
    have hsb : (g.button_pos + 1) % (activeIndices g.players).length
        < (activeIndices g.players).length := Nat.mod_lt _ hlen
    have hbb : (g.button_pos + 2) % (activeIndices g.players).length
        < (activeIndices g.players).length := Nat.mod_lt _ hlen
    have hsbIdx : (activeIndices g.players).getD
        ((g.button_pos + 1) % (activeIndices g.players).length) 0 < g.players.length :=
      mem_activeIndices_lt (getD_mem_of_lt hsb 0)
    have hbbIdx : (activeIndices g.players).getD
        ((g.button_pos + 2) % (activeIndices g.players).length) 0 < g.players.length :=
      mem_activeIndices_lt (getD_mem_of_lt hbb 0)
    rw [chipsSum_set _ _ _ (by simpa [List.length_set] using hbbIdx),
        chipsSum_set _ _ _ hsbIdx]
    simp only []
    ring
  next => rfl

theorem startHandDeal_conserve (g : PokerGame) :
    chipsSum (startHandDeal g).players = chipsSum g.players ∧
    (startHandDeal g).state.pot = g.state.pot := by
  unfold startHandDeal
  have := chipsSum_dealHoles g.players g.deck
  cases hd : dealHoles g.players g.deck with
  | mk a b =>
      rw [hd] at this
      exact ⟨this, rfl⟩

theorem start_hand_conserve (g : PokerGame) (s : List Card) :
    chipsSum (g.start_hand s).players + (g.start_hand s).state.pot
      = chipsSum g.players := by
  unfold PokerGame.start_hand
  obtain ⟨hd1, hd2⟩ := startHandDeal_conserve (startHandBlinds (startHandAntes (startHandReset g s)))
  rw [hd1, hd2, startHandBlinds_conserve, startHandAntes_conserve,
      (startHandReset_conserve g s).1, (startHandReset_conserve g s).2]
  ring

theorem apply_action_conserve (g : PokerGame) (i : Nat) (a : Action) (amount : Int)
    (h : i < g.players.length) :
    chipsSum (g.apply_action i a amount).players
        + (g.apply_action i a amount).state.pot
      = chipsSum g.players + g.state.pot := by
  cases a <;>
    simp only [PokerGame.apply_action, HandState.add_action] <;>
    simp [chipsSum_set _ _ _ h, apply_ite Player.chips, apply_ite HandState.pot]

/-- C1: chip conservation. After `start_hand` (ante and blind posting plus
dealing), the sum of all players' chips plus the pot equals the sum of all
players' chips immediately before `start_hand`; and every `apply_action`
whose action and amount are drawn from `get_valid_actions` for that player
leaves the quantity (sum of all players' chips + pot) unchanged. -/
theorem c1_chip_conservation :
    (∀ (g : PokerGame) (shuffled : List Card),
        chipsSum (g.start_hand shuffled).players + (g.start_hand shuffled).state.pot
          = chipsSum g.players) ∧
    (∀ (g : PokerGame) (i : Nat) (a : Action) (amount lo hi : Int),
        i < g.players.length →
        (a, lo, hi) ∈ g.get_valid_actions (g.players.getD i default) →
        lo ≤ amount → amount ≤ hi →
        chipsSum (g.apply_action i a amount).players
            + (g.apply_action i a amount).state.pot
          = chipsSum g.players + g.state.pot) :=
  ⟨fun g s => start_hand_conserve g s,
   fun g i a amount _ _ h _ _ _ => apply_action_conserve g i a amount h⟩

/-- C1 witness: in `c1Game` player 0 may legally CHECK (amount 0), and the
check leaves total chips + pot unchanged. -/
theorem c1_chip_conservation_witness :
    chipsSum (c1Game.apply_action 0 .check 0).players
        + (c1Game.apply_action 0 .check 0).state.pot
      = chipsSum c1Game.players + c1Game.state.pot :=
  c1_chip_conservation.2 c1Game 0 .check 0 0 0 (by decide) (by decide)
    (by decide) (by decide)

/-! ### Pot-distribution lemmas (C2) -/

theorem enumFrom_filter_inHand_map_snd : ∀ (ps : List Player) (k : Nat),
    ((ps.enumFrom k).filter (fun x => inHand x.2)).map (·.2) = ps.filter inHand
  | [], _ => rfl
  | p :: ps, k => by
      by_cases h : inHand p <;>
        simp [List.enumFrom, List.filter_cons, h,
          enumFrom_filter_inHand_map_snd ps (k + 1)]

theorem enum_filter_inHand_map_snd (ps : List Player) :
    (ps.enum.filter (fun x => inHand x.2)).map (·.2) = ps.filter inHand :=
  enumFrom_filter_inHand_map_snd ps 0

theorem evalHands_ne_nil {c : List Card} {ip : Nat × Player}
    {rest : List (Nat × Player)} {l' : List ((Nat × Player) × (HandRank × List Nat))}
    (h : evalHands c (ip :: rest) = some l') : l' ≠ [] := by
  unfold evalHands at h
  split at h
  · have h' := Option.some.inj h
    subst h'
    simp
  all_goals simp at h

theorem pickWinners_some_ne_nil :
    ∀ (l : List ((Nat × Player) × (HandRank × List Nat)))
      (b : HandRank × List Nat) (ws : List (Nat × Player)),
      ws ≠ [] → (pickWinners l (some b) ws).2 ≠ []
  | [], _, _, h => h
  | (p, hh) :: rest, b, ws, h => by
      simp only [pickWinners]
      split
      · exact pickWinners_some_ne_nil rest hh [p] (by simp)
      · split
        · exact pickWinners_some_ne_nil rest b (ws ++ [p]) (by simp)
        · exact pickWinners_some_ne_nil rest b ws h

theorem pickWinners_none_ne_nil
    {l : List ((Nat × Player) × (HandRank × List Nat))} (hne : l ≠ [])
    (ws : List (Nat × Player)) : (pickWinners l none ws).2 ≠ [] := by
  cases l with
  | nil => exact absurd rfl hne
  | cons x rest =>
      obtain ⟨p, hh⟩ := x
      simpa [pickWinners] using pickWinners_some_ne_nil rest hh [p] (by simp)

theorem award_amounts_sum (share rem : Int) : ∀ (ws : List (Nat × Player)) (k : Nat),
    ((ws.enumFrom k).map
        (fun x => share + if (x.1 : Int) < rem then (1 : Int) else 0)).sum
      = ws.length * share + max 0 (min (rem - k) ws.length)
  | [], k => by
      simp only [List.enumFrom, List.map_nil, List.sum_nil, List.length_nil,
        Nat.cast_zero, zero_mul, zero_add]
      rcases le_total (rem - (k : Int)) 0 with h | h
      · rw [min_eq_left h, max_eq_left h]
      · rw [min_eq_right h, max_eq_right le_rfl]
  | w :: ws, k => by
      have ih := award_amounts_sum share rem ws (k + 1)
      simp only [List.enumFrom, List.map_cons, List.sum_cons, ih, List.length_cons]
      push_cast
      have hmul : ((ws.length : Int) + 1) * share = ws.length * share + share := by
        ring
      rw [hmul]
      generalize (ws.length : Int) * share = A
      by_cases hk : (k : Int) < rem
      · rw [if_pos hk]
        omega
      · rw [if_neg hk]
        omega

theorem split_pot_sum (pot : Int) (ws : List (Nat × Player)) (hw : ws ≠ []) :
    ((ws.enum.map (fun x => pot.fdiv ws.length +
        if (x.1 : Int) < pot.fmod ws.length then (1 : Int) else 0)).sum) = pot := by
  have hn : 0 < (ws.length : Int) := by
    cases ws with
    | nil => exact absurd rfl hw
    | cons a l =>
        simp only [List.length_cons]
        push_cast
        omega
  have h0 : 0 ≤ pot.fmod ws.length := by
    rw [Int.fmod_eq_emod _ (le_of_lt hn)]
    exact Int.emod_nonneg _ (ne_of_gt hn)
  have h1 : pot.fmod ws.length < ws.length := Int.fmod_lt_of_pos pot hn
  have hsum := award_amounts_sum (pot.fdiv ws.length) (pot.fmod ws.length) ws 0
  have henum : ws.enum = ws.enumFrom 0 := rfl
  rw [henum, hsum]
  rw [Nat.cast_zero, sub_zero, min_eq_left (le_of_lt h1), max_eq_right h0]
  exact Int.fdiv_add_fmod pot ws.length

theorem determine_winners_sum (g : PokerGame) (res : List (String × Int))
    (g' : PokerGame) (h1 : 1 ≤ g.active_players.length)
    (h2 : g.determine_winners = some (res, g')) :
    (res.map (·.2)).sum = g.state.pot := by
  simp only [PokerGame.determine_winners] at h2
  split at h2
  next heq =>
    exfalso
    have hap : g.players.filter inHand = [] := by
      rw [← enum_filter_inHand_map_snd, heq]
      rfl
    simp [PokerGame.active_players, hap] at h1
  next x heq =>
    simp only [Option.some.injEq, Prod.mk.injEq] at h2
    obtain ⟨hres, _⟩ := h2
    rw [← hres]
    simp
  next heq1 heq2 =>
    split at h2
    next => cases h2
    next pairs heval =>
      simp only [Option.some.injEq, Prod.mk.injEq] at h2
      obtain ⟨hres, _⟩ := h2
      have hpairs : pairs ≠ [] := by
        rcases hact : g.players.enum.filter (fun x => inHand x.2) with _ | ⟨ip, rest⟩
        · exact absurd hact heq1
        · rw [hact] at heval
          exact evalHands_ne_nil heval
      have hwin := pickWinners_none_ne_nil hpairs ([] : List (Nat × Player))
      rw [← hres, List.map_map, List.map_map]
      exact split_pot_sum g.state.pot (pickWinners pairs none []).2 hwin

/-- C2: whenever `determine_winners` runs to completion with at least one
non-folded active player, the sum of the amounts it awards equals the pot
exactly; in particular a pot of 100 split among 3 tied winners yields
shares 34, 33, 33, assigned in the fixed order in which the tied winners
appear in the player list. -/
theorem c2_awards_sum_to_pot :
    (∀ (g : PokerGame) (res : List (String × Int)) (g' : PokerGame),
        1 ≤ g.active_players.length →
        g.determine_winners = some (res, g') →
        (res.map (·.2)).sum = g.state.pot) ∧
    (c2Game.determine_winners).map (·.1)
      = some [("P1", 34), ("P2", 33), ("P3", 33)] :=
  ⟨determine_winners_sum, by decide⟩

/-- C2 witness: in `c2UncontestedGame` (one live player, pot 80) the
returned award list is [("W", 80)], whose amounts sum to the pot. -/
theorem c2_awards_sum_to_pot_witness :
    (([("W", (80 : Int))].map (·.2)).sum = c2UncontestedGame.state.pot) :=
  c2_awards_sum_to_pot.1 c2UncontestedGame [("W", 80)] c2UncontestedAfter
    (by decide) (by decide)

/-! ### Hole-card privacy (C10) -/

theorem opponents_view_eq (n : String) :
    ∀ {ps₁ ps₂ : List Player}, List.Forall₂ samePublic ps₁ ps₂ →
      ((ps₁.filter (fun p => p.name ≠ n && p.is_active)).map
          (fun p => ({ name := p.name, chips := p.chips, bet := p.current_bet,
                       folded := p.folded, all_in := p.all_in } : OpponentView)))
        = ((ps₂.filter (fun p => p.name ≠ n && p.is_active)).map
          (fun p => ({ name := p.name, chips := p.chips, bet := p.current_bet,
                       folded := p.folded, all_in := p.all_in } : OpponentView))) := by
  intro ps₁ ps₂ h
  induction h with
  | nil => rfl
  | cons hpq _ ih =>
      obtain ⟨h1, h2, h3, h4, h5, h6⟩ := hpq
      simp only [List.filter_cons, h1, h6]
      split
      · simp only [List.map_cons, ih, h1, h2, h3, h4, h5]
      · exact ih

/-- C10: hole-card privacy. The per-player snapshot returned by
`get_game_state_for_player` contains only the player's own hole cards:
for any two game states that agree on the hand state and on every public
player field (name, chips, current bet, folded, all-in, is-active) but may
differ arbitrarily in the hole cards of players other than the observer,
the returned snapshots are identical. -/
theorem c10_hole_card_privacy (g₁ g₂ : PokerGame) (p₁ p₂ : Player)
    (hps : List.Forall₂ samePublic g₁.players g₂.players)
    (hst : g₁.state = g₂.state)
    (hname : p₁.name = p₂.name) (hchips : p₁.chips = p₂.chips)
    (hbet : p₁.current_bet = p₂.current_bet)
    (hcards : p₁.hole_cards = p₂.hole_cards) :
    g₁.get_game_state_for_player p₁ = g₂.get_game_state_for_player p₂ := by
  unfold PokerGame.get_game_state_for_player
  rw [hst, hname, hchips, hbet, hcards]
  simp only [PlayerGameState.mk.injEq, true_and, and_true]
  exact opponents_view_eq p₂.name hps

/-- C10 witness: `c10Game₁` and `c10Game₂` differ only in the opponent's
hole cards (A♥A♦ versus 7♣2♦), yet the snapshot shown to `c10Me` is
identical. -/
theorem c10_hole_card_privacy_witness :
    c10Game₁.get_game_state_for_player c10Me
      = c10Game₂.get_game_state_for_player c10Me :=
  c10_hole_card_privacy c10Game₁ c10Game₂ c10Me c10Me
    (List.Forall₂.cons ⟨rfl, rfl, rfl, rfl, rfl, rfl⟩
      (List.Forall₂.cons ⟨rfl, rfl, rfl, rfl, rfl, rfl⟩ List.Forall₂.nil))
    rfl rfl rfl rfl rfl

end AIPoker
